import Mathlib

/-!
Verification development for the medium-scrapper repository.

Each JavaScript function relevant to the stated properties is shallowly
embedded as an executable Lean definition.  Host primitives (wall clock,
`Date.now()`, `Math.random()`, the browser page, the implementation-defined
`new Date(string)` parser) are passed in as explicit parameters, so every
definition is a pure function of its inputs.
-/

/- ## Paywall detector (src/src/utils/paywallHandler.js) -/

/-- One non-null detector result: the JS object `{ type, selector/element... }`.
Only the `type` tag is consulted by `determinePaywallType`; the remaining
payload is collapsed into `detail`. -/
structure Indicator where
  type : String
  detail : String
deriving DecidableEq, Repr

/-- `PaywallDetector.determinePaywallType` (paywallHandler.js:224-247):
filters out null indicators, returns null when none are active, otherwise
resolves the type by the fixed precedence chain, defaulting to "unknown". -/
def determinePaywallType (indicators : List (Option Indicator)) : Option String :=
  let activeIndicators := indicators.filterMap id
  if activeIndicators.length = 0 then
    none
  else
    let types := activeIndicators.map (fun i => i.type)
    if types.contains "premium" then some "premium"
    else if types.contains "member_only" then some "member_only"
    else if types.contains "subscription_prompt" then some "subscription_prompt"
    else if types.contains "login_required" then some "login_required"
    else if types.contains "content_truncation" then some "content_truncation"
    else some "unknown"

/-- `PaywallDetector.calculateConfidence` (paywallHandler.js:249-252):
`Math.min(activeIndicators.length * 0.25, 1.0)`. -/
def calculateConfidence (indicators : List (Option Indicator)) : ℚ :=
  min ((indicators.filterMap id).length * (1/4 : ℚ)) 1

/-- The object returned by `PaywallDetector.detectPaywall`; `error` is the
extra field present only in the catch branch. -/
structure PaywallResult where
  hasPaywall : Bool
  paywallType : Option String
  indicators : List (Option Indicator)
  confidence : ℚ
  error : Option String
deriving DecidableEq, Repr

/-- `PaywallDetector.detectPaywall` (paywallHandler.js:23-58).  The joint
outcome of the five concurrent detector checks (`Promise.all`) is the input:
`.ok` carries the five per-detector slots, `.error` models any check
throwing (which rejects the `Promise.all` and lands in the catch branch). -/
def detectPaywall (checks : Except String (List (Option Indicator))) : PaywallResult :=
  match checks with
  | .ok paywallIndicators =>
      let paywallType := determinePaywallType paywallIndicators
      { hasPaywall := paywallType.isSome
        paywallType := paywallType
        indicators := paywallIndicators
        confidence := calculateConfidence paywallIndicators
        error := none }
  | .error e =>
      { hasPaywall := false
        paywallType := none
        indicators := []
        confidence := 0
        error := some e }

/-- Helper: the resolved type is null exactly when no indicator is active. -/
theorem determinePaywallType_eq_none_iff (indicators : List (Option Indicator)) :
    determinePaywallType indicators = none ↔ (indicators.filterMap id).length = 0 := by
  simp only [determinePaywallType]
  split_ifs <;> simp_all <;> tauto

/-- C3: paywall type resolution follows the precedence order
premium > member_only > subscription_prompt > login_required >
content_truncation > unknown: an indicator vector containing both a premium
and a login_required indicator resolves to premium, and a vector with at
least one non-null indicator but no recognized type resolves to unknown. -/
theorem determinePaywallType_precedence :
    (∀ indicators : List (Option Indicator),
      (∃ i, some i ∈ indicators ∧ i.type = "premium") →
      (∃ j, some j ∈ indicators ∧ j.type = "login_required") →
      determinePaywallType indicators = some "premium") ∧
    (∀ indicators : List (Option Indicator),
      (∃ i, some i ∈ indicators) →
      (∀ i, some i ∈ indicators →
        i.type ∉ ["premium", "member_only", "subscription_prompt",
                  "login_required", "content_truncation"]) →
      determinePaywallType indicators = some "unknown") := by
  constructor
  · rintro indicators ⟨i, hi, hit⟩ ⟨j, hj, hjt⟩
    have hmem : i ∈ indicators.filterMap id := by
      simp only [List.mem_filterMap, id]
      exact ⟨some i, hi, rfl⟩
    have hlen : (indicators.filterMap id).length ≠ 0 := by
      intro h
      rw [List.length_eq_zero] at h
      simp [h] at hmem
    have hprem : ((indicators.filterMap id).map (fun i => i.type)).contains "premium" = true := by
      simp only [List.contains_eq_any_beq, List.any_eq_true]
      exact ⟨i.type, List.mem_map_of_mem _ hmem, by simp [hit]⟩
    unfold determinePaywallType
    simp only [hlen, if_false, hprem, if_true, reduceIte]
  · rintro indicators ⟨i, hi⟩ hnone
    have hmem : i ∈ indicators.filterMap id := by
      simp only [List.mem_filterMap, id]
      exact ⟨some i, hi, rfl⟩
    have hlen : (indicators.filterMap id).length ≠ 0 := by
      intro h
      rw [List.length_eq_zero] at h
      simp [h] at hmem
    have hno : ∀ t : String,
        t ∈ ["premium", "member_only", "subscription_prompt",
             "login_required", "content_truncation"] →
        ((indicators.filterMap id).map (fun i => i.type)).contains t = false := by
      intro t ht
      simp only [List.contains_eq_any_beq, List.any_eq_false]
      intro ty hty
      simp only [List.mem_map, List.mem_filterMap, id] at hty
      obtain ⟨a, ⟨oa, hoa, hao⟩, hat⟩ := hty
      subst hao hat
      have := hnone a hoa
      simp only [beq_iff_eq]
      intro hh
      exact this (hh ▸ ht)
    unfold determinePaywallType
    simp only [hlen, if_false, reduceIte,
      hno "premium" (by simp), hno "member_only" (by simp),
      hno "subscription_prompt" (by simp), hno "login_required" (by simp),
      hno "content_truncation" (by simp), Bool.false_eq_true]

/-- C3 witness: concrete indicator vectors exercising both conjuncts. -/
theorem determinePaywallType_precedence_witness :
    determinePaywallType [some ⟨"login_required", "x"⟩, some ⟨"premium", "y"⟩] = some "premium" ∧
    determinePaywallType [some ⟨"mystery", "z"⟩, none] = some "unknown" :=
  ⟨determinePaywallType_precedence.1 _
      ⟨⟨"premium", "y"⟩, by simp, rfl⟩ ⟨⟨"login_required", "x"⟩, by simp, rfl⟩,
    determinePaywallType_precedence.2 _
      ⟨⟨"mystery", "z"⟩, by simp⟩
      (by
        intro i hi
        simp only [List.mem_cons, List.not_mem_nil, or_false, reduceCtorEq,
          Option.some.injEq] at hi
        subst hi
        decide)⟩

/-- C4: every PaywallResult produced by detectPaywall has
confidence = min(0.25 × count of non-null indicators, 1.0), confidence lies
in [0,1], and confidence = 0 exactly when hasPaywall = false. -/
theorem detectPaywall_confidence (checks : Except String (List (Option Indicator))) :
    (detectPaywall checks).confidence =
        min (((detectPaywall checks).indicators.filterMap id).length * (1/4 : ℚ)) 1 ∧
    0 ≤ (detectPaywall checks).confidence ∧
    (detectPaywall checks).confidence ≤ 1 ∧
    ((detectPaywall checks).confidence = 0 ↔ (detectPaywall checks).hasPaywall = false) := by
  cases checks with
  | error e =>
      simp [detectPaywall, calculateConfidence]
  | ok indicators =>
      refine ⟨rfl, ?_, ?_, ?_⟩
      · show (0 : ℚ) ≤ min (((indicators.filterMap id).length : ℚ) * (1/4)) 1
        positivity
      · show min (((indicators.filterMap id).length : ℚ) * (1/4)) 1 ≤ 1
        exact min_le_right _ _
      · show min (((indicators.filterMap id).length : ℚ) * (1/4)) 1 = 0 ↔
          (determinePaywallType indicators).isSome = false
        have hiff := determinePaywallType_eq_none_iff indicators
        constructor
        · intro h
          have hn : (indicators.filterMap id).length = 0 := by
            by_contra hne
            have h1 : (1 : ℚ) ≤ ((indicators.filterMap id).length : ℚ) := by
              exact_mod_cast Nat.one_le_iff_ne_zero.2 hne
            have h2 : (1/4 : ℚ) ≤ min (((indicators.filterMap id).length : ℚ) * (1/4)) 1 :=
              le_min (by nlinarith) (by norm_num)
            rw [h] at h2
            norm_num at h2
          rw [hiff.2 hn]
          rfl
        · intro h
          have hnone : determinePaywallType indicators = none := by
            cases hd : determinePaywallType indicators with
            | none => rfl
            | some v => rw [hd] at h; simp at h
          have hn := hiff.1 hnone
          rw [hn]
          norm_num

/-- C10: detectPaywall is total at its public interface: when any of the five
concurrent detector checks throws (the error branch), it still returns a
PaywallResult reporting no paywall — hasPaywall false, an empty indicators
array, and confidence 0. -/
theorem detectPaywall_error_branch (e : String) :
    detectPaywall (Except.error e) =
      { hasPaywall := false
        paywallType := none
        indicators := []
        confidence := 0
        error := some e } := rfl

/- ## Rate limiter (src/unnamed/part_000, class RateLimiter) -/

/-- The fields of a `RateLimiter` instance.  Times are wall-clock
milliseconds and tokens are fractional, both modelled as rationals. -/
structure RateLimiterState where
  requestsPerMinute : ℚ
  tokens : ℚ
  lastRefill : ℚ
deriving Repr

/-- The `RateLimiter` constructor: `tokens = requestsPerMinute`,
`lastRefill = Date.now()`. -/
def RateLimiterState.new (requestsPerMinute now : ℚ) : RateLimiterState :=
  { requestsPerMinute := requestsPerMinute, tokens := requestsPerMinute, lastRefill := now }

/-- `RateLimiter.refillTokens` with `Date.now()` passed in as `now`. -/
def refillTokens (s : RateLimiterState) (now : ℚ) : RateLimiterState :=
  let timePassed := now - s.lastRefill
  let refillAmount := timePassed / 60000 * s.requestsPerMinute
  { s with tokens := min s.requestsPerMinute (s.tokens + refillAmount), lastRefill := now }

/-- `RateLimiter.waitForToken`: refill at time `t1`; if fewer than one token
remains, sleep one refill interval and refill again at time `t2` (with
`t2 ≥ t1 + (60 / requestsPerMinute) * 1000` guaranteed by `setTimeout`);
finally consume one token. -/
def waitForToken (s : RateLimiterState) (t1 t2 : ℚ) : RateLimiterState :=
  let s1 := refillTokens s t1
  if s1.tokens < 1 then
    let s2 := refillTokens s1 t2
    { s2 with tokens := s2.tokens - 1 }
  else
    { s1 with tokens := s1.tokens - 1 }

/-- One observable operation on the限 rate limiter. -/
inductive RLOp where
  | refill (now : ℚ)
  | acquire (t1 t2 : ℚ)

/-- Run a sequence of operations against the limiter state. -/
def runRLOps (s : RateLimiterState) : List RLOp → RateLimiterState
  | [] => s
  | RLOp.refill now :: rest => runRLOps (refillTokens s now) rest
  | RLOp.acquire t1 t2 :: rest => runRLOps (waitForToken s t1 t2) rest

/-- Timestamps in a trace are admissible: wall clock never runs backwards,
and the sleep in the empty-bucket branch lasts at least
`(60 / requestsPerMinute) * 1000` milliseconds. -/
def validRLTrace (s : RateLimiterState) : List RLOp → Prop
  | [] => True
  | RLOp.refill now :: rest => s.lastRefill ≤ now ∧ validRLTrace (refillTokens s now) rest
  | RLOp.acquire t1 t2 :: rest =>
      s.lastRefill ≤ t1 ∧ t1 + 60 / s.requestsPerMinute * 1000 ≤ t2 ∧
      validRLTrace (waitForToken s t1 t2) rest

/-- The token level is within the bucket's bounds. -/
def rlInBounds (s : RateLimiterState) : Prop :=
  0 ≤ s.tokens ∧ s.tokens ≤ s.requestsPerMinute

/-- Refilling preserves the capacity field. -/
theorem refillTokens_requestsPerMinute (s : RateLimiterState) (now : ℚ) :
    (refillTokens s now).requestsPerMinute = s.requestsPerMinute := rfl

/-- Refilling with a non-receding clock keeps the level in bounds. -/
theorem refillTokens_inBounds (s : RateLimiterState) (now : ℚ)
    (hcap : 0 ≤ s.requestsPerMinute) (hlo : 0 ≤ s.tokens) (hnow : s.lastRefill ≤ now) :
    rlInBounds (refillTokens s now) := by
  constructor
  · show (0 : ℚ) ≤ min s.requestsPerMinute (s.tokens + (now - s.lastRefill) / 60000 * s.requestsPerMinute)
    apply le_min hcap
    have : (0 : ℚ) ≤ (now - s.lastRefill) / 60000 * s.requestsPerMinute := by
      apply mul_nonneg _ hcap
      apply div_nonneg _ (by norm_num)
      linarith
    linarith
  · exact min_le_left _ _

/-- Acquiring preserves the capacity field. -/
theorem waitForToken_requestsPerMinute (s : RateLimiterState) (t1 t2 : ℚ) :
    (waitForToken s t1 t2).requestsPerMinute = s.requestsPerMinute := by
  simp only [waitForToken]
  split <;> rfl

/-- Acquiring a token under admissible timestamps keeps the level in bounds,
including the empty-bucket wait branch. -/
theorem waitForToken_inBounds (s : RateLimiterState) (t1 t2 : ℚ)
    (hcap : 1 ≤ s.requestsPerMinute) (hinv : rlInBounds s)
    (ht1 : s.lastRefill ≤ t1) (ht2 : t1 + 60 / s.requestsPerMinute * 1000 ≤ t2) :
    rlInBounds (waitForToken s t1 t2) := by
  obtain ⟨hlo, hhi⟩ := hinv
  have hcap0 : (0 : ℚ) ≤ s.requestsPerMinute := by linarith
  have hpos : (0 : ℚ) < s.requestsPerMinute := by linarith
  obtain ⟨h1lo, h1hi⟩ := refillTokens_inBounds s t1 hcap0 hlo ht1
  rw [refillTokens_requestsPerMinute] at h1hi
  simp only [waitForToken]
  split
  case isTrue hlt =>
    have heq : 60 / s.requestsPerMinute * 1000 = 60000 / s.requestsPerMinute := by
      field_simp
      ring
    rw [heq] at ht2
    have hwait : 60000 / s.requestsPerMinute ≤ t2 - t1 := by linarith
    have hgain : (1 : ℚ) ≤ (t2 - t1) / 60000 * s.requestsPerMinute := by
      have h1 : 60000 / s.requestsPerMinute / 60000 * s.requestsPerMinute = 1 := by
        field_simp
        ring
      have h2 : 60000 / s.requestsPerMinute / 60000 * s.requestsPerMinute ≤
          (t2 - t1) / 60000 * s.requestsPerMinute := by gcongr
      linarith
    have htok : (refillTokens (refillTokens s t1) t2).tokens =
        min s.requestsPerMinute
          ((refillTokens s t1).tokens + (t2 - t1) / 60000 * s.requestsPerMinute) := rfl
    have hone : (1 : ℚ) ≤ (refillTokens (refillTokens s t1) t2).tokens := by
      rw [htok]
      exact le_min hcap (by linarith)
    have hub : (refillTokens (refillTokens s t1) t2).tokens ≤ s.requestsPerMinute := by
      rw [htok]
      exact min_le_left _ _
    exact ⟨by show (0 : ℚ) ≤ _ - 1; linarith, by show _ - 1 ≤ _; show _ - 1 ≤ s.requestsPerMinute; linarith⟩
  case isFalse hge =>
    push_neg at hge
    exact ⟨by show (0 : ℚ) ≤ _ - 1; linarith, by show _ - 1 ≤ s.requestsPerMinute; linarith⟩

/-- C5: across any admissible sequence of acquire (waitForToken) and refill
operations, the token level never exceeds the configured capacity
(requestsPerMinute) and never becomes negative, including the branch where
the empty bucket waits one refill interval, refills, and decrements. -/
theorem rateLimiter_tokens_inBounds (s : RateLimiterState) (ops : List RLOp)
    (hcap : 1 ≤ s.requestsPerMinute) (hinv : rlInBounds s)
    (hvalid : validRLTrace s ops) :
    rlInBounds (runRLOps s ops) := by
  induction ops generalizing s with
  | nil => exact hinv
  | cons op rest ih =>
    cases op with
    | refill now =>
      obtain ⟨hnow, hrest⟩ := hvalid
      have hcap0 : (0 : ℚ) ≤ s.requestsPerMinute := by linarith
      exact ih (refillTokens s now)
        (by rw [refillTokens_requestsPerMinute]; exact hcap)
        (refillTokens_inBounds s now hcap0 hinv.1 hnow) hrest
    | acquire t1 t2 =>
      obtain ⟨ht1, ht2, hrest⟩ := hvalid
      exact ih (waitForToken s t1 t2)
        (by rw [waitForToken_requestsPerMinute]; exact hcap)
        (waitForToken_inBounds s t1 t2 hcap hinv ht1 ht2) hrest

/-- C5 witness: the configured limiter (requestsPerMinute = 30 from
config.js) run over a concrete admissible trace that exercises both the
empty-bucket wait branch and a plain refill. -/
theorem rateLimiter_tokens_inBounds_witness :
    rlInBounds (runRLOps (RateLimiterState.new 30 0)
      [RLOp.acquire 0 2000, RLOp.refill 2500, RLOp.acquire 2500 4500]) :=
  rateLimiter_tokens_inBounds _ _ (by norm_num [RateLimiterState.new])
    (by constructor <;> norm_num [RateLimiterState.new])
    (by
      refine ⟨by norm_num [RateLimiterState.new], by norm_num [RateLimiterState.new], ?_, ?_⟩ <;>
        norm_num [RateLimiterState.new, waitForToken, refillTokens, validRLTrace])

/- ## Proxy rotation manager (src/src/utils/dataExporter.js, class ProxyManager) -/

/-- The ProxyManager fields consulted by getNextProxy / markProxySuccess.
`failedProxies` is a JS `Set`, modelled as a duplicate-free list. -/
structure ProxyManagerState where
  proxyList : List String
  currentIndex : Nat
  failedProxies : List String
  useRotatingProxies : Bool
deriving DecidableEq, Repr

/-- The while loop inside `getNextProxy`: starting from `idx`, advance
`currentIndex` modulo the pool size up to `fuel` times (`fuel` starts at
`proxyList.length`, matching `attempts < this.proxyList.length`), stopping
early at the first proxy not in the failed set.  Returns the final index and
the last proxy assigned (`none` only if the loop body never ran). -/
def walkProxies (l : List String) (failed : List String) :
    Nat → Option String → Nat → Nat × Option String
  | idx, last, 0 => (idx, last)
  | idx, _, fuel + 1 =>
      let idx2 := (idx + 1) % l.length
      let p := l.getD idx2 ""
      if p ∈ failed then walkProxies l failed idx2 (some p) fuel
      else (idx2, some p)

/-- `ProxyManager.getNextProxy` (dataExporter.js:450-477): returns the chosen
proxy (null when rotation is off or the pool is empty) and the updated
state; when the walk visited the whole pool without finding a healthy proxy,
the failed set is cleared. -/
def getNextProxy (s : ProxyManagerState) : Option String × ProxyManagerState :=
  if s.useRotatingProxies = false ∨ s.proxyList.length = 0 then
    (none, s)
  else
    match walkProxies s.proxyList s.failedProxies s.currentIndex none s.proxyList.length with
    | (idx2, some proxy) =>
        if proxy ∈ s.failedProxies then
          (some proxy, { s with currentIndex := idx2, failedProxies := [] })
        else
          (some proxy, { s with currentIndex := idx2 })
    | (idx2, none) => (none, { s with currentIndex := idx2 })

/-- `ProxyManager.markProxySuccess` (dataExporter.js:487-493): remove the
proxy from the failed set if present (`proxy` must be truthy, i.e.
non-empty). -/
def markProxySuccess (s : ProxyManagerState) (proxy : String) : ProxyManagerState :=
  if proxy ≠ "" ∧ proxy ∈ s.failedProxies then
    { s with failedProxies := s.failedProxies.erase proxy }
  else s

/-- Helper: when every pool entry is failed, the walk runs through its whole
fuel, advancing the index by `fuel` modulo the pool size and ending on the
proxy at that final index. -/
theorem walkProxies_all_failed (l : List String) (failed : List String)
    (hall : ∀ p ∈ l, p ∈ failed) (hne : l ≠ []) :
    ∀ fuel idx last, idx < l.length →
      walkProxies l failed idx last fuel =
        ((idx + fuel) % l.length,
         if fuel = 0 then last else some (l.getD ((idx + fuel) % l.length) "")) := by
  have hlen : 0 < l.length := List.length_pos.2 hne
  intro fuel
  induction fuel with
  | zero =>
      intro idx last hidx
      simp [walkProxies, Nat.mod_eq_of_lt hidx]
  | succ n ih =>
      intro idx last hidx
      have hidx2 : (idx + 1) % l.length < l.length := Nat.mod_lt _ hlen
      have hmem : l.getD ((idx + 1) % l.length) "" ∈ l := by
        rw [List.getD_eq_getElem _ _ hidx2]
        exact List.getElem_mem _
      have hfail : l.getD ((idx + 1) % l.length) "" ∈ failed := hall _ hmem
      simp only [walkProxies, hfail, if_true, reduceIte]
      rw [ih _ _ hidx2]
      have harith : ((idx + 1) % l.length + n) % l.length = (idx + (n + 1)) % l.length := by
        rw [Nat.mod_add_mod]
        congr 1
        omega
      cases n with
      | zero => simp [harith]
      | succ m => simp [harith]

/-- C9 counterexample: a pool of three identities, all marked unhealthy,
with the rotation index standing at 1 (one earlier rotation).  The next
getNextProxy call returns the identity at the pre-call index ("p1"), not
the first pool identity "p0" — refuting the claim as stated. -/
theorem getNextProxy_all_failed_counterexample :
    (∀ p ∈ ["p0", "p1", "p2"], p ∈ ["p0", "p1", "p2"]) ∧
    (getNextProxy
      { proxyList := ["p0", "p1", "p2"], currentIndex := 1,
        failedProxies := ["p0", "p1", "p2"], useRotatingProxies := true }).1 = some "p1" ∧
    (getNextProxy
      { proxyList := ["p0", "p1", "p2"], currentIndex := 1,
        failedProxies := ["p0", "p1", "p2"], useRotatingProxies := true }).1 ≠ some "p0" := by
  refine ⟨fun p hp => hp, ?_, ?_⟩ <;> decide

/-- C9 (amended): when every identity in the non-empty pool is unhealthy,
getNextProxy does not return null: it clears the unhealthy set (full reset)
and returns the pool identity at the pre-call rotation index — the first
pool identity exactly when the index is at its initial value 0 — leaving
the index where it was; and markProxySuccess removes a (truthy) identity
from the unhealthy set if present. -/
theorem getNextProxy_all_failed_reset :
    (∀ s : ProxyManagerState, s.useRotatingProxies = true → s.proxyList ≠ [] →
      s.currentIndex < s.proxyList.length →
      (∀ p ∈ s.proxyList, p ∈ s.failedProxies) →
      getNextProxy s =
        (some (s.proxyList.getD s.currentIndex ""),
         { s with failedProxies := [] })) ∧
    (∀ (s : ProxyManagerState) (p : String), p ≠ "" → s.failedProxies.Nodup →
      p ∉ (markProxySuccess s p).failedProxies) := by
  constructor
  · intro s hrot hne hidx hall
    have hlen : 0 < s.proxyList.length := List.length_pos.2 hne
    have hcond : ¬ (s.useRotatingProxies = false ∨ s.proxyList.length = 0) := by
      rw [hrot]
      push_neg
      exact ⟨fun h => by simp at h, by omega⟩
    have hwalk := walkProxies_all_failed s.proxyList s.failedProxies hall hne
      s.proxyList.length s.currentIndex none hidx
    have hmod : (s.currentIndex + s.proxyList.length) % s.proxyList.length = s.currentIndex := by
      rw [Nat.add_mod_right]
      exact Nat.mod_eq_of_lt hidx
    rw [hmod] at hwalk
    have hfuel : s.proxyList.length ≠ 0 := by omega
    rw [if_neg hfuel] at hwalk
    have hpfail : s.proxyList.getD s.currentIndex "" ∈ s.failedProxies := by
      apply hall
      rw [List.getD_eq_getElem _ _ hidx]
      exact List.getElem_mem _
    unfold getNextProxy
    rw [if_neg hcond, hwalk]
    simp only [hpfail, if_true, reduceIte]
  · intro s p hp hnodup
    unfold markProxySuccess
    split
    case isTrue h =>
      show p ∉ s.failedProxies.erase p
      intro hmem
      rw [List.Nodup.mem_erase_iff hnodup] at hmem
      exact hmem.1 rfl
    case isFalse h =>
      push_neg at h
      intro hmem
      exact (h hp) hmem

/-- C9 witness: the reset branch and the recovery branch at concrete
states — a fresh manager (index 0) whose whole pool is unhealthy, and a
manager with "p1" in its failed set. -/
theorem getNextProxy_all_failed_reset_witness :
    getNextProxy
      { proxyList := ["p0", "p1", "p2"], currentIndex := 0,
        failedProxies := ["p0", "p1", "p2"], useRotatingProxies := true } =
      (some "p0",
       { proxyList := ["p0", "p1", "p2"], currentIndex := 0,
         failedProxies := [], useRotatingProxies := true }) ∧
    "p1" ∉ (markProxySuccess
      { proxyList := ["p0", "p1", "p2"], currentIndex := 0,
        failedProxies := ["p1", "p2"], useRotatingProxies := true } "p1").failedProxies :=
  ⟨getNextProxy_all_failed_reset.1 _ rfl (by decide) (by decide) (by decide),
   getNextProxy_all_failed_reset.2 _ _ (by decide) (by decide)⟩

/- ## Retry with exponential backoff (src/src/utils/dataExporter.js, retry) -/

/-- The evolution of the `delay` variable: it starts at `initialDelay` and
each failed (non-final) attempt updates it to `Math.min(delay * 2, maxDelay)`.
`backoffDelay init maxD k` is its value after `k` updates; the wait before
attempt `k + 1` uses `backoffDelay init maxD k`. -/
def backoffDelay (initialDelay maxDelay : ℚ) : Nat → ℚ
  | 0 => initialDelay
  | k + 1 => min (backoffDelay initialDelay maxDelay k * 2) maxDelay

/-- The jitter multiplier `(0.5 + Math.random())` applied to the base delay. -/
def jitterFactor (r : ℚ) : ℚ := 1/2 + r

/-- The message of the error thrown after the last attempt fails:
`Failed after N attempts. Last error: MSG`. -/
def retryFailMsg (maxRetries : Nat) (lastMsg : String) : String :=
  "Failed after " ++ toString maxRetries ++ " attempts. Last error: " ++ lastMsg

/-- The `for` loop of `retry`: `fn a` is the outcome of attempt `a`
(1-based), `rand a` the `Math.random()` draw used for the jitter after
attempt `a`.  Returns the overall outcome together with the list of slept
jittered delays.  `fuel` bounds the recursion; `maxRetries - attempt ≤ fuel`
holds on every reachable call, so the fuel-exhausted branch is never
taken from `retry` itself. -/
def retryGo {A : Type} (fn : Nat → Except String A) (rand : Nat → ℚ)
    (maxRetries : Nat) (maxDelay : ℚ) :
    Nat → ℚ → Nat → Except String A × List ℚ
  | attempt, _, 0 =>
      match fn attempt with
      | .ok a => (.ok a, [])
      | .error e =>
          if attempt = maxRetries then (.error (retryFailMsg maxRetries e), [])
          else (.error e, [])
  | attempt, delay, fuel + 1 =>
      match fn attempt with
      | .ok a => (.ok a, [])
      | .error e =>
          if attempt = maxRetries then (.error (retryFailMsg maxRetries e), [])
          else
            let delay2 := min (delay * 2) maxDelay
            let jitterWait := delay2 * jitterFactor (rand attempt)
            let rest := retryGo fn rand maxRetries maxDelay (attempt + 1) delay2 fuel
            (rest.1, jitterWait :: rest.2)

/-- `retry(fn, { maxRetries, initialDelay, maxDelay })`
(dataExporter.js:365-394), for `maxRetries ≥ 1`. -/
def retry {A : Type} (fn : Nat → Except String A) (rand : Nat → ℚ)
    (maxRetries : Nat) (initialDelay maxDelay : ℚ) : Except String A × List ℚ :=
  retryGo fn rand maxRetries maxDelay 1 initialDelay maxRetries

/-- Helper: shifting the start of the backoff recurrence by one update. -/
theorem backoffDelay_shift (initialDelay maxDelay : ℚ) (k : Nat) :
    backoffDelay initialDelay maxDelay (k + 1) =
      backoffDelay (min (initialDelay * 2) maxDelay) maxDelay k := by
  induction k with
  | zero => rfl
  | succ m ih =>
      show min (backoffDelay initialDelay maxDelay (m + 1) * 2) maxDelay = _
      rw [ih]
      rfl

/-- Helper: the backoff delay is non-negative for non-negative parameters. -/
theorem backoffDelay_nonneg (initialDelay maxDelay : ℚ)
    (h0 : 0 ≤ initialDelay) (hm : 0 ≤ maxDelay) (k : Nat) :
    0 ≤ backoffDelay initialDelay maxDelay k := by
  induction k with
  | zero => exact h0
  | succ m ih =>
      show 0 ≤ min (backoffDelay initialDelay maxDelay m * 2) maxDelay
      exact le_min (by linarith) hm

/-- Helper: a run whose every attempt fails walks through all remaining
attempts, sleeping the jittered backoff delays, and ends with the
last-error message. -/
theorem retryGo_all_failed {A : Type} (fn : Nat → Except String A)
    (rand : Nat → ℚ) (maxRetries : Nat) (maxDelay : ℚ) (errs : Nat → String)
    (hfail : ∀ a, fn a = .error (errs a)) :
    ∀ fuel attempt delay, 1 ≤ attempt → attempt ≤ maxRetries →
      attempt + fuel = maxRetries + 1 →
      retryGo fn rand maxRetries maxDelay attempt delay fuel =
        (.error (retryFailMsg maxRetries (errs maxRetries)),
         (List.range (maxRetries - attempt)).map
           (fun k => backoffDelay delay maxDelay (k + 1) * jitterFactor (rand (attempt + k)))) := by
  intro fuel
  induction fuel with
  | zero =>
      intro attempt delay h1 hle hsum
      omega
  | succ n ih =>
      intro attempt delay h1 hle hsum
      by_cases hlast : attempt = maxRetries
      · subst hlast
        simp [retryGo, hfail]
      · have hlt : attempt < maxRetries := lt_of_le_of_ne hle hlast
        have hrec := ih (attempt + 1) (min (delay * 2) maxDelay)
          (by omega) (by omega) (by omega)
        simp only [retryGo, hfail, hlast, if_false, reduceIte, hrec]
        have hrange : maxRetries - attempt = (maxRetries - (attempt + 1)) + 1 := by omega
        rw [hrange, List.range_succ_eq_map, List.map_cons, List.map_map]
        apply congrArg (Prod.mk (Except.error (retryFailMsg maxRetries (errs maxRetries))))
        congr 1
        apply List.map_congr_left
        intro k hk
        show backoffDelay (min (delay * 2) maxDelay) maxDelay (k + 1) *
            jitterFactor (rand (attempt + 1 + k)) =
          backoffDelay delay maxDelay (k + 1 + 1) * jitterFactor (rand (attempt + (k + 1)))
        rw [backoffDelay_shift delay maxDelay (k + 1)]
        have harg : attempt + 1 + k = attempt + (k + 1) := by omega
        rw [harg]

/-- C7: the wait before each next attempt is the base delay
`min(previousDelay × 2, maxDelay)` times the jitter factor `0.5 + r` with
`r ∈ [0, 1)` (so the factor lies in [0.5, 1.5)); the waited base-delay
sequence `backoffDelay init maxD (k)` for `k ≥ 1` is non-decreasing and
never exceeds maxDelay; and exhausting all attempts surfaces the last
observed failure in the error handed to the caller. -/
theorem retry_backoff_spec :
    (∀ (initialDelay maxDelay : ℚ), 0 ≤ initialDelay → 0 ≤ maxDelay →
      ∀ k, 1 ≤ k →
        backoffDelay initialDelay maxDelay k ≤ backoffDelay initialDelay maxDelay (k + 1) ∧
        backoffDelay initialDelay maxDelay k ≤ maxDelay) ∧
    (∀ r : ℚ, 0 ≤ r → r < 1 → 1/2 ≤ jitterFactor r ∧ jitterFactor r < 3/2) ∧
    (∀ (A : Type) (fn : Nat → Except String A) (rand : Nat → ℚ)
        (maxRetries : Nat) (initialDelay maxDelay : ℚ) (errs : Nat → String),
      1 ≤ maxRetries → (∀ a, fn a = .error (errs a)) →
      retry fn rand maxRetries initialDelay maxDelay =
        (.error (retryFailMsg maxRetries (errs maxRetries)),
         (List.range (maxRetries - 1)).map
           (fun k => backoffDelay initialDelay maxDelay (k + 1) *
             jitterFactor (rand (k + 1))))) := by
  refine ⟨?_, ?_, ?_⟩
  · intro initialDelay maxDelay h0 hm k hk
    obtain ⟨j, rfl⟩ : ∃ j, k = j + 1 := ⟨k - 1, by omega⟩
    have hcap : backoffDelay initialDelay maxDelay (j + 1) ≤ maxDelay := by
      show min (backoffDelay initialDelay maxDelay j * 2) maxDelay ≤ maxDelay
      exact min_le_right _ _
    refine ⟨?_, hcap⟩
    show backoffDelay initialDelay maxDelay (j + 1) ≤
      min (backoffDelay initialDelay maxDelay (j + 1) * 2) maxDelay
    have hnn := backoffDelay_nonneg initialDelay maxDelay h0 hm (j + 1)
    exact le_min (by linarith) hcap
  · intro r h0 h1
    unfold jitterFactor
    constructor <;> linarith
  · intro A fn rand maxRetries initialDelay maxDelay errs hmr hfail
    unfold retry
    rw [retryGo_all_failed fn rand maxRetries maxDelay errs hfail maxRetries 1 initialDelay
      le_rfl hmr (by omega)]
    have : ∀ k, 1 + k = k + 1 := fun k => by omega
    simp only [this]

/-- C7 witness: the amended statement at concrete inputs — an
always-failing operation with 3 attempts, and concrete jitter draws. -/
theorem retry_backoff_spec_witness :
    ((0 : ℚ) ≤ 3000 ∧ (0 : ℚ) ≤ 10000 ∧
      backoffDelay 3000 10000 1 ≤ backoffDelay 3000 10000 2 ∧
      backoffDelay 3000 10000 1 ≤ 10000) ∧
    ((1 : ℚ)/2 ≤ jitterFactor (1/4) ∧ jitterFactor (1/4) < 3/2) ∧
    retry (fun _ => (Except.error "boom" : Except String Nat)) (fun _ => 1/4) 3 3000 10000 =
      (.error (retryFailMsg 3 "boom"),
       [backoffDelay 3000 10000 1 * jitterFactor (1/4),
        backoffDelay 3000 10000 2 * jitterFactor (1/4)]) := by
  refine ⟨⟨by norm_num, by norm_num, ?_, ?_⟩, ?_, ?_⟩
  · exact (retry_backoff_spec.1 3000 10000 (by norm_num) (by norm_num) 1 le_rfl).1
  · exact (retry_backoff_spec.1 3000 10000 (by norm_num) (by norm_num) 1 le_rfl).2
  · exact retry_backoff_spec.2.1 (1/4) (by norm_num) (by norm_num)
  · have := retry_backoff_spec.2.2 Nat (fun _ => (Except.error "boom" : Except String Nat))
      (fun _ => 1/4) 3 3000 10000 (fun _ => "boom") (by norm_num) (fun a => rfl)
    rw [this]
    rfl

/- ## Infinite-scroll pagination
(src/utils.js configurePagination.handleInfiniteScroll and
src/src/scrapers/AuthorScraper.js extractAuthorArticles) -/

/-- The body of `handleInfiniteScroll`'s while loop.  `heights i` is the
pair of `document.body.scrollHeight` observations (before, after) made
during iteration `i`.  `fuel` is a recursion bound; the loop's own guard is
`scrollCount < maxScrolls ∧ noChangeCount < 3`, exactly as in the source,
and `fuel = maxScrolls` already suffices (proved below).  Returns the final
`scrollCount`. -/
def handleInfiniteScrollGo (heights : Nat → Nat × Nat) (maxScrolls : Nat) :
    Nat → Nat → Nat → Nat
  | scrollCount, _, 0 => scrollCount
  | scrollCount, noChangeCount, fuel + 1 =>
      if scrollCount < maxScrolls ∧ noChangeCount < 3 then
        let previousHeight := (heights scrollCount).1
        let newHeight := (heights scrollCount).2
        if newHeight = previousHeight then
          handleInfiniteScrollGo heights maxScrolls (scrollCount + 1) (noChangeCount + 1) fuel
        else
          handleInfiniteScrollGo heights maxScrolls (scrollCount + 1) 0 fuel
      else scrollCount

/-- `configurePagination().handleInfiniteScroll(page, maxScrolls, ...)`
(utils.js:308-340): runs the scroll loop from a fresh state. -/
def handleInfiniteScroll (heights : Nat → Nat × Nat) (maxScrolls : Nat) : Nat :=
  handleInfiniteScrollGo heights maxScrolls 0 0 maxScrolls

/-- One article summary as assembled by `extractArticlesFromCurrentView`;
only the fields the pagination/filter logic reads are kept. -/
structure ArticleSummary where
  url : String
  title : String
  date : String
deriving DecidableEq, Repr

/-- The merge step of `extractAuthorArticles` (AuthorScraper.js:183-187):
`currentArticles.filter(a => !articles.some(e => e.url === a.url))`
appended to the accumulator.  Note it filters only against the previously
accumulated list, not within the incoming batch. -/
def mergeNewArticles (articles currentArticles : List ArticleSummary) : List ArticleSummary :=
  articles ++ currentArticles.filter
    (fun a => ! articles.any (fun existing => existing.url == a.url))

/-- The while loop of `extractAuthorArticles` (AuthorScraper.js:170-204).
`views i` is what `extractArticlesFromCurrentView` returns during iteration
`i`; `loadMore i` is what `loadMoreArticles` returns there.  The guard is
`hasMore ∧ scrollCount < maxScrolls ∧ articles.length < maxPosts`, with a
mid-body break once the merged count reaches `maxPosts`.  Returns the final
article list and the number of loop-body iterations executed. -/
def extractGo (views : Nat → List ArticleSummary) (loadMore : Nat → Bool)
    (maxPosts maxScrolls : Nat) :
    List ArticleSummary → Bool → Nat → Nat → Nat → List ArticleSummary × Nat
  | articles, _, _, iters, 0 => (articles, iters)
  | articles, hasMore, scrollCount, iters, fuel + 1 =>
      if hasMore = true ∧ scrollCount < maxScrolls ∧ articles.length < maxPosts then
        let acc2 := mergeNewArticles articles (views scrollCount)
        if maxPosts ≤ acc2.length then (acc2, iters + 1)
        else extractGo views loadMore maxPosts maxScrolls
          acc2 (loadMore scrollCount) (scrollCount + 1) (iters + 1) fuel
      else (articles, iters)

/-- `AuthorScraper.extractAuthorArticles` run from the initial state
(`articles = []`, `hasMore = true`, `scrollCount = 0`), with
`maxScrolls = 10` in the source. -/
def extractAuthorArticles (views : Nat → List ArticleSummary) (loadMore : Nat → Bool)
    (maxPosts maxScrolls : Nat) : List ArticleSummary × Nat :=
  extractGo views loadMore maxPosts maxScrolls [] true 0 0 maxScrolls

/-- Helper: the scroll loop's result does not depend on the fuel once the
fuel covers the iterations the guard allows. -/
theorem handleInfiniteScrollGo_fuel_stable (heights : Nat → Nat × Nat) (maxScrolls : Nat) :
    ∀ fuel1 fuel2 scrollCount noChangeCount,
      maxScrolls - scrollCount ≤ fuel1 → maxScrolls - scrollCount ≤ fuel2 →
      handleInfiniteScrollGo heights maxScrolls scrollCount noChangeCount fuel1 =
        handleInfiniteScrollGo heights maxScrolls scrollCount noChangeCount fuel2 := by
  intro fuel1
  induction fuel1 with
  | zero =>
      intro fuel2 sc ncc h1 h2
      have hsc : maxScrolls ≤ sc := by omega
      cases fuel2 with
      | zero => rfl
      | succ m =>
          show handleInfiniteScrollGo heights maxScrolls sc ncc 0 =
            handleInfiniteScrollGo heights maxScrolls sc ncc (m + 1)
          have hguard : ¬ (sc < maxScrolls ∧ ncc < 3) := by omega
          simp [handleInfiniteScrollGo, hguard]
  | succ n ih =>
      intro fuel2 sc ncc h1 h2
      cases fuel2 with
      | zero =>
          have hsc : maxScrolls ≤ sc := by omega
          have hguard : ¬ (sc < maxScrolls ∧ ncc < 3) := by omega
          simp [handleInfiniteScrollGo, hguard]
      | succ m =>
          by_cases hguard : sc < maxScrolls ∧ ncc < 3
          · show (if sc < maxScrolls ∧ ncc < 3 then
                if (heights sc).2 = (heights sc).1 then
                  handleInfiniteScrollGo heights maxScrolls (sc + 1) (ncc + 1) n
                else handleInfiniteScrollGo heights maxScrolls (sc + 1) 0 n
              else sc) =
              (if sc < maxScrolls ∧ ncc < 3 then
                if (heights sc).2 = (heights sc).1 then
                  handleInfiniteScrollGo heights maxScrolls (sc + 1) (ncc + 1) m
                else handleInfiniteScrollGo heights maxScrolls (sc + 1) 0 m
              else sc)
            rw [if_pos hguard, if_pos hguard]
            by_cases hh : (heights sc).2 = (heights sc).1
            · rw [if_pos hh, if_pos hh]
              exact ih m (sc + 1) (ncc + 1) (by omega) (by omega)
            · rw [if_neg hh, if_neg hh]
              exact ih m (sc + 1) 0 (by omega) (by omega)
          · simp [handleInfiniteScrollGo, hguard]

/-- Helper: the final scrollCount never exceeds the ceiling. -/
theorem handleInfiniteScrollGo_le (heights : Nat → Nat × Nat) (maxScrolls : Nat) :
    ∀ fuel scrollCount noChangeCount, scrollCount ≤ maxScrolls →
      handleInfiniteScrollGo heights maxScrolls scrollCount noChangeCount fuel ≤ maxScrolls := by
  intro fuel
  induction fuel with
  | zero => intro sc ncc h; exact h
  | succ n ih =>
      intro sc ncc h
      by_cases hguard : sc < maxScrolls ∧ ncc < 3
      · show (if sc < maxScrolls ∧ ncc < 3 then
            if (heights sc).2 = (heights sc).1 then
              handleInfiniteScrollGo heights maxScrolls (sc + 1) (ncc + 1) n
            else handleInfiniteScrollGo heights maxScrolls (sc + 1) 0 n
          else sc) ≤ maxScrolls
        rw [if_pos hguard]
        by_cases hh : (heights sc).2 = (heights sc).1
        · rw [if_pos hh]
          exact ih (sc + 1) (ncc + 1) (by omega)
        · rw [if_neg hh]
          exact ih (sc + 1) 0 (by omega)
      · show (if sc < maxScrolls ∧ ncc < 3 then
            if (heights sc).2 = (heights sc).1 then
              handleInfiniteScrollGo heights maxScrolls (sc + 1) (ncc + 1) n
            else handleInfiniteScrollGo heights maxScrolls (sc + 1) 0 n
          else sc) ≤ maxScrolls
        rw [if_neg hguard]
        exact h

/-- Helper: under a never-changing page height the loop exits after three
consecutive stalls (or at the ceiling, whichever is smaller). -/
theorem handleInfiniteScrollGo_stall (heights : Nat → Nat × Nat) (maxScrolls : Nat)
    (hstall : ∀ i, (heights i).2 = (heights i).1) :
    ∀ fuel scrollCount noChangeCount, scrollCount ≤ maxScrolls → noChangeCount ≤ 3 →
      maxScrolls - scrollCount ≤ fuel →
      handleInfiniteScrollGo heights maxScrolls scrollCount noChangeCount fuel =
        scrollCount + min (maxScrolls - scrollCount) (3 - noChangeCount) := by
  intro fuel
  induction fuel with
  | zero =>
      intro sc ncc hsc hncc hfuel
      have : maxScrolls = sc := by omega
      subst this
      simp [handleInfiniteScrollGo]
  | succ n ih =>
      intro sc ncc hsc hncc hfuel
      by_cases hguard : sc < maxScrolls ∧ ncc < 3
      · show (if sc < maxScrolls ∧ ncc < 3 then
            if (heights sc).2 = (heights sc).1 then
              handleInfiniteScrollGo heights maxScrolls (sc + 1) (ncc + 1) n
            else handleInfiniteScrollGo heights maxScrolls (sc + 1) 0 n
          else sc) = sc + min (maxScrolls - sc) (3 - ncc)
        rw [if_pos hguard, if_pos (hstall sc),
          ih (sc + 1) (ncc + 1) (by omega) (by omega) (by omega)]
        omega
      · show (if sc < maxScrolls ∧ ncc < 3 then
            if (heights sc).2 = (heights sc).1 then
              handleInfiniteScrollGo heights maxScrolls (sc + 1) (ncc + 1) n
            else handleInfiniteScrollGo heights maxScrolls (sc + 1) 0 n
          else sc) = sc + min (maxScrolls - sc) (3 - ncc)
        rw [if_neg hguard]
        omega

/-- Helper: the extract loop's result does not depend on the fuel once the
fuel covers the iterations the guard allows. -/
theorem extractGo_fuel_stable (views : Nat → List ArticleSummary) (loadMore : Nat → Bool)
    (maxPosts maxScrolls : Nat) :
    ∀ fuel1 fuel2 articles hasMore scrollCount iters,
      maxScrolls - scrollCount ≤ fuel1 → maxScrolls - scrollCount ≤ fuel2 →
      extractGo views loadMore maxPosts maxScrolls articles hasMore scrollCount iters fuel1 =
        extractGo views loadMore maxPosts maxScrolls articles hasMore scrollCount iters fuel2 := by
  intro fuel1
  induction fuel1 with
  | zero =>
      intro fuel2 articles hasMore sc iters h1 h2
      cases fuel2 with
      | zero => rfl
      | succ m =>
          have hguard : ¬ (hasMore = true ∧ sc < maxScrolls ∧ articles.length < maxPosts) := by
            omega
          simp [extractGo, hguard]
  | succ n ih =>
      intro fuel2 articles hasMore sc iters h1 h2
      cases fuel2 with
      | zero =>
          have hguard : ¬ (hasMore = true ∧ sc < maxScrolls ∧ articles.length < maxPosts) := by
            omega
          simp [extractGo, hguard]
      | succ m =>
          by_cases hguard : hasMore = true ∧ sc < maxScrolls ∧ articles.length < maxPosts
          · show (if hasMore = true ∧ sc < maxScrolls ∧ articles.length < maxPosts then
                if maxPosts ≤ (mergeNewArticles articles (views sc)).length then
                  (mergeNewArticles articles (views sc), iters + 1)
                else extractGo views loadMore maxPosts maxScrolls
                  (mergeNewArticles articles (views sc)) (loadMore sc) (sc + 1) (iters + 1) n
              else (articles, iters)) =
              (if hasMore = true ∧ sc < maxScrolls ∧ articles.length < maxPosts then
                if maxPosts ≤ (mergeNewArticles articles (views sc)).length then
                  (mergeNewArticles articles (views sc), iters + 1)
                else extractGo views loadMore maxPosts maxScrolls
                  (mergeNewArticles articles (views sc)) (loadMore sc) (sc + 1) (iters + 1) m
              else (articles, iters))
            rw [if_pos hguard, if_pos hguard]
            by_cases hfull : maxPosts ≤ (mergeNewArticles articles (views sc)).length
            · rw [if_pos hfull, if_pos hfull]
            · rw [if_neg hfull, if_neg hfull]
              exact ih m _ _ (sc + 1) (iters + 1) (by omega) (by omega)
          · simp [extractGo, hguard]

/-- Helper: the iteration count of the extract loop never exceeds the
ceiling. -/
theorem extractGo_iters_le (views : Nat → List ArticleSummary) (loadMore : Nat → Bool)
    (maxPosts maxScrolls : Nat) :
    ∀ fuel articles hasMore scrollCount iters,
      scrollCount ≤ maxScrolls → iters ≤ scrollCount →
      (extractGo views loadMore maxPosts maxScrolls articles hasMore scrollCount iters fuel).2 ≤
        maxScrolls := by
  intro fuel
  induction fuel with
  | zero => intro articles hasMore sc iters hsc hit; exact le_trans hit hsc
  | succ n ih =>
      intro articles hasMore sc iters hsc hit
      by_cases hguard : hasMore = true ∧ sc < maxScrolls ∧ articles.length < maxPosts
      · show ((if hasMore = true ∧ sc < maxScrolls ∧ articles.length < maxPosts then
            if maxPosts ≤ (mergeNewArticles articles (views sc)).length then
              (mergeNewArticles articles (views sc), iters + 1)
            else extractGo views loadMore maxPosts maxScrolls
              (mergeNewArticles articles (views sc)) (loadMore sc) (sc + 1) (iters + 1) n
          else (articles, iters)) : List ArticleSummary × Nat).2 ≤ maxScrolls
        rw [if_pos hguard]
        by_cases hfull : maxPosts ≤ (mergeNewArticles articles (views sc)).length
        · rw [if_pos hfull]
          show iters + 1 ≤ maxScrolls
          omega
        · rw [if_neg hfull]
          exact ih _ _ (sc + 1) (iters + 1) (by omega) (by omega)
      · show ((if hasMore = true ∧ sc < maxScrolls ∧ articles.length < maxPosts then
            if maxPosts ≤ (mergeNewArticles articles (views sc)).length then
              (mergeNewArticles articles (views sc), iters + 1)
            else extractGo views loadMore maxPosts maxScrolls
              (mergeNewArticles articles (views sc)) (loadMore sc) (sc + 1) (iters + 1) n
          else (articles, iters)) : List ArticleSummary × Nat).2 ≤ maxScrolls
        rw [if_neg hguard]
        exact le_trans hit hsc

/-- C1: the pagination loops always terminate within the configured
max-iteration ceiling, for every sequence of page observations.  For the
`handleInfiniteScroll` loop: the result is already determined with fuel
equal to `maxScrolls` (so the guard, not the fuel, terminates the loop),
the final scroll count never exceeds `maxScrolls`, and a page whose height
never changes stops the loop after 3 consecutive stalled iterations.  For
the `extractAuthorArticles` loop: fuel `maxScrolls` likewise suffices, the
iteration count never exceeds `maxScrolls`, and the loop stops immediately
once the accumulated article count has reached `maxPosts`. -/
theorem pagination_loop_termination :
    (∀ (heights : Nat → Nat × Nat) (maxScrolls extra : Nat),
      handleInfiniteScrollGo heights maxScrolls 0 0 (maxScrolls + extra) =
        handleInfiniteScroll heights maxScrolls) ∧
    (∀ (heights : Nat → Nat × Nat) (maxScrolls : Nat),
      handleInfiniteScroll heights maxScrolls ≤ maxScrolls) ∧
    (∀ (heights : Nat → Nat × Nat) (maxScrolls : Nat),
      (∀ i, (heights i).2 = (heights i).1) →
      handleInfiniteScroll heights maxScrolls = min maxScrolls 3) ∧
    (∀ (views : Nat → List ArticleSummary) (loadMore : Nat → Bool)
        (maxPosts maxScrolls extra : Nat),
      extractGo views loadMore maxPosts maxScrolls [] true 0 0 (maxScrolls + extra) =
        extractAuthorArticles views loadMore maxPosts maxScrolls) ∧
    (∀ (views : Nat → List ArticleSummary) (loadMore : Nat → Bool)
        (maxPosts maxScrolls : Nat),
      (extractAuthorArticles views loadMore maxPosts maxScrolls).2 ≤ maxScrolls) ∧
    (∀ (views : Nat → List ArticleSummary) (loadMore : Nat → Bool)
        (maxPosts maxScrolls : Nat) (articles : List ArticleSummary)
        (hasMore : Bool) (scrollCount iters fuel : Nat),
      maxPosts ≤ articles.length →
      extractGo views loadMore maxPosts maxScrolls articles hasMore scrollCount iters fuel =
        (articles, iters)) := by
  refine ⟨?_, ?_, ?_, ?_, ?_, ?_⟩
  · intro heights maxScrolls extra
    exact handleInfiniteScrollGo_fuel_stable heights maxScrolls _ _ 0 0 (by omega) (by omega)
  · intro heights maxScrolls
    exact handleInfiniteScrollGo_le heights maxScrolls maxScrolls 0 0 (by omega)
  · intro heights maxScrolls hstall
    have := handleInfiniteScrollGo_stall heights maxScrolls hstall maxScrolls 0 0
      (by omega) (by omega) (by omega)
    unfold handleInfiniteScroll
    rw [this]
    omega
  · intro views loadMore maxPosts maxScrolls extra
    exact extractGo_fuel_stable views loadMore maxPosts maxScrolls _ _ [] true 0 0
      (by omega) (by omega)
  · intro views loadMore maxPosts maxScrolls
    exact extractGo_iters_le views loadMore maxPosts maxScrolls maxScrolls [] true 0 0
      (by omega) (by omega)
  · intro views loadMore maxPosts maxScrolls articles hasMore sc iters fuel hfull
    cases fuel with
    | zero => rfl
    | succ n =>
        have hguard : ¬ (hasMore = true ∧ sc < maxScrolls ∧ articles.length < maxPosts) := by
          omega
        simp [extractGo, hguard]

/-- C1 witness: the stall-exit and maxPosts-exit conjuncts at concrete
inputs — a page whose height is stuck at 100 stops after 3 of 10 allowed
scrolls, and a loop entered with 2 ≥ maxPosts articles accumulated returns
at once. -/
theorem pagination_loop_termination_witness :
    handleInfiniteScroll (fun _ => (100, 100)) 10 = min 10 3 ∧
    extractGo (fun _ => []) (fun _ => true) 2 10
      [⟨"u1", "t1", "d1"⟩, ⟨"u2", "t2", "d2"⟩] true 4 4 6 =
      ([⟨"u1", "t1", "d1"⟩, ⟨"u2", "t2", "d2"⟩], 4) :=
  ⟨pagination_loop_termination.2.2.1 _ 10 (fun i => rfl),
   pagination_loop_termination.2.2.2.2.2 _ _ 2 10 _ true 4 4 6 (by decide)⟩

/-- C2 counterexample: a single view batch containing two summaries with
the same url (e.g. a title link and an image link to the same story).  The
merge step filters only against the previously accumulated list, so both
copies survive, and the completed run's article list repeats the url "u". -/
theorem extractAuthorArticles_duplicate_url :
    ((extractAuthorArticles
        (fun _ => [⟨"u", "title link", "d"⟩, ⟨"u", "image link", "d"⟩])
        (fun _ => false) 10 10).1.map (fun a => a.url)).Nodup = False := by
  decide

/-- Helper: merging preserves duplicate-free urls when the incoming batch
itself has duplicate-free urls. -/
theorem mergeNewArticles_nodup (articles currentArticles : List ArticleSummary)
    (hacc : (articles.map (fun a => a.url)).Nodup)
    (hcur : (currentArticles.map (fun a => a.url)).Nodup) :
    ((mergeNewArticles articles currentArticles).map (fun a => a.url)).Nodup := by
  unfold mergeNewArticles
  rw [List.map_append, List.nodup_append]
  refine ⟨hacc, ?_, ?_⟩
  · have hsub : List.Sublist
        (currentArticles.filter (fun a => ! articles.any (fun existing => existing.url == a.url)))
        currentArticles :=
      List.filter_sublist _
    exact (hsub.map (fun a => a.url)).nodup hcur
  · intro u hu1 hu2
    simp only [List.mem_map] at hu1 hu2
    obtain ⟨a, ha, hau⟩ := hu1
    obtain ⟨b, hb, hbu⟩ := hu2
    rw [List.mem_filter] at hb
    have hnot := hb.2
    simp only [Bool.not_eq_eq_eq_not, Bool.not_true, List.any_eq_false, beq_iff_eq] at hnot
    exact (hnot a ha (by rw [hau, hbu])).elim

/-- C2 (amended): provided every per-iteration view batch has pairwise
distinct urls, the merge step (which adds only summaries whose url is not
already accumulated) makes the completed run's article list pairwise
distinct in url. -/
theorem extractAuthorArticles_nodup_urls
    (views : Nat → List ArticleSummary) (loadMore : Nat → Bool)
    (maxPosts maxScrolls : Nat)
    (hbatch : ∀ i, ((views i).map (fun a => a.url)).Nodup) :
    (((extractAuthorArticles views loadMore maxPosts maxScrolls).1).map
      (fun a => a.url)).Nodup := by
  suffices h : ∀ fuel articles hasMore scrollCount iters,
      (articles.map (fun a => a.url)).Nodup →
      (((extractGo views loadMore maxPosts maxScrolls
          articles hasMore scrollCount iters fuel).1).map (fun a => a.url)).Nodup by
    exact h maxScrolls [] true 0 0 (by simp)
  intro fuel
  induction fuel with
  | zero => intro articles hasMore sc iters hacc; exact hacc
  | succ n ih =>
      intro articles hasMore sc iters hacc
      by_cases hguard : hasMore = true ∧ sc < maxScrolls ∧ articles.length < maxPosts
      · show ((((if hasMore = true ∧ sc < maxScrolls ∧ articles.length < maxPosts then
            if maxPosts ≤ (mergeNewArticles articles (views sc)).length then
              (mergeNewArticles articles (views sc), iters + 1)
            else extractGo views loadMore maxPosts maxScrolls
              (mergeNewArticles articles (views sc)) (loadMore sc) (sc + 1) (iters + 1) n
          else (articles, iters)) : List ArticleSummary × Nat).1).map (fun a => a.url)).Nodup
        rw [if_pos hguard]
        have hmerge := mergeNewArticles_nodup articles (views sc) hacc (hbatch sc)
        by_cases hfull : maxPosts ≤ (mergeNewArticles articles (views sc)).length
        · rw [if_pos hfull]
          exact hmerge
        · rw [if_neg hfull]
          exact ih _ _ (sc + 1) (iters + 1) hmerge
      · show ((((if hasMore = true ∧ sc < maxScrolls ∧ articles.length < maxPosts then
            if maxPosts ≤ (mergeNewArticles articles (views sc)).length then
              (mergeNewArticles articles (views sc), iters + 1)
            else extractGo views loadMore maxPosts maxScrolls
              (mergeNewArticles articles (views sc)) (loadMore sc) (sc + 1) (iters + 1) n
          else (articles, iters)) : List ArticleSummary × Nat).1).map (fun a => a.url)).Nodup
        rw [if_neg hguard]
        exact hacc

/-- C2 witness: two batches that overlap each other (but are each
duplicate-free) produce a duplicate-free result. -/
theorem extractAuthorArticles_nodup_urls_witness :
    (((extractAuthorArticles
        (fun i => if i = 0 then [⟨"a", "t1", "d"⟩, ⟨"b", "t2", "d"⟩]
                  else [⟨"b", "t2", "d"⟩, ⟨"c", "t3", "d"⟩])
        (fun _ => true) 10 10).1).map (fun a => a.url)).Nodup :=
  extractAuthorArticles_nodup_urls _ _ 10 10
    (by intro i; by_cases h : i = 0 <;> simp [h])

/- ## Date-range filtering (src/src/scrapers/AuthorScraper.js filterArticles) -/

/-- The date range of the input options; `stop` models the source field
named `end` (a Lean keyword). -/
structure DateRange where
  start : Option String
  stop : Option String
deriving DecidableEq, Repr

/-- JS `<` between two `Date` values: comparing with an Invalid Date (NaN,
modelled as `none`) is always false. -/
def jsDateLt : Option ℚ → Option ℚ → Bool
  | some a, some b => a < b
  | _, _ => false

/-- JS `>` between two `Date` values, with the same NaN semantics. -/
def jsDateGt : Option ℚ → Option ℚ → Bool
  | some a, some b => b < a
  | _, _ => false

/-- The predicate of the dateRange filter (AuthorScraper.js:367-382):
`parse` models `new Date(string)` (`none` = Invalid Date).  The article is
dropped only when a bound is present and the strict comparison against it
holds; `new Date` never throws, so the source's catch arm is dead code. -/
def keepByDateRange (parse : String → Option ℚ) (range : DateRange)
    (articleDate : String) : Bool :=
  let parsed := parse articleDate
  let startCheck := match range.start with
    | some s => jsDateLt parsed (parse s)
    | none => false
  let endCheck := match range.stop with
    | some e => jsDateGt parsed (parse e)
    | none => false
  !startCheck && !endCheck

/-- The date-range filtering step of `filterArticles`, applied only when a
dateRange was supplied. -/
def filterByDateRange (parse : String → Option ℚ) (range : Option DateRange)
    (articles : List ArticleSummary) : List ArticleSummary :=
  match range with
  | none => articles
  | some r => articles.filter (fun a => keepByDateRange parse r a.date)

/-- C8: the date-range filter is fail-open for unparseable dates: an
article whose date does not parse is kept (for any bounds), while an
article with a parseable date strictly before a parseable start bound, or
strictly after a parseable end bound, is dropped; parseable dates within
the bounds are kept. -/
theorem filterByDateRange_fail_open :
    (∀ (parse : String → Option ℚ) (range : DateRange)
        (articles : List ArticleSummary) (a : ArticleSummary),
      a ∈ articles → parse a.date = none →
      a ∈ filterByDateRange parse (some range) articles) ∧
    (∀ (parse : String → Option ℚ) (range : DateRange) (d s : String) (t sv : ℚ),
      parse d = some t → range.start = some s → parse s = some sv → t < sv →
      keepByDateRange parse range d = false) ∧
    (∀ (parse : String → Option ℚ) (range : DateRange) (d e : String) (t ev : ℚ),
      parse d = some t → range.stop = some e → parse e = some ev → ev < t →
      keepByDateRange parse range d = false) ∧
    (∀ (parse : String → Option ℚ) (range : DateRange) (d : String) (t : ℚ),
      parse d = some t →
      (∀ s sv, range.start = some s → parse s = some sv → sv ≤ t) →
      (∀ e ev, range.stop = some e → parse e = some ev → t ≤ ev) →
      keepByDateRange parse range d = true) := by
  refine ⟨?_, ?_, ?_, ?_⟩
  · intro parse range articles a ha hnone
    show a ∈ articles.filter (fun a => keepByDateRange parse range a.date)
    rw [List.mem_filter]
    refine ⟨ha, ?_⟩
    obtain ⟨rs, re⟩ := range
    cases rs <;> cases re <;>
      simp [keepByDateRange, hnone, jsDateLt, jsDateGt]
  · intro parse range d s t sv hd hs hsv hlt
    obtain ⟨rs, re⟩ := range
    have hrs : rs = some s := hs
    subst hrs
    simp [keepByDateRange, hd, hsv, jsDateLt, hlt]
  · intro parse range d e t ev hd he hev hgt
    obtain ⟨rs, re⟩ := range
    have hre : re = some e := he
    subst hre
    cases rs <;> simp [keepByDateRange, hd, hev, jsDateLt, jsDateGt, hgt]
  · intro parse range d t hd hstart hstop
    obtain ⟨rs, re⟩ := range
    cases rs with
    | none =>
        cases re with
        | none => simp [keepByDateRange, hd]
        | some e =>
            cases hev : parse e with
            | none => simp [keepByDateRange, hd, hev, jsDateGt]
            | some ev =>
                have hle := hstop e ev rfl hev
                simp [keepByDateRange, hd, hev, jsDateGt, not_lt.2 hle]
    | some s =>
        cases hsv : parse s with
        | none =>
            cases re with
            | none => simp [keepByDateRange, hd, hsv, jsDateLt]
            | some e =>
                cases hev : parse e with
                | none => simp [keepByDateRange, hd, hsv, hev, jsDateLt, jsDateGt]
                | some ev =>
                    have hle := hstop e ev rfl hev
                    simp [keepByDateRange, hd, hsv, hev, jsDateLt, jsDateGt, not_lt.2 hle]
        | some sv =>
            have hge := hstart s sv rfl hsv
            cases re with
            | none => simp [keepByDateRange, hd, hsv, jsDateLt, not_lt.2 hge]
            | some e =>
                cases hev : parse e with
                | none =>
                    simp [keepByDateRange, hd, hsv, hev, jsDateLt, jsDateGt, not_lt.2 hge]
                | some ev =>
                    have hle := hstop e ev rfl hev
                    simp [keepByDateRange, hd, hsv, hev, jsDateLt, jsDateGt,
                      not_lt.2 hge, not_lt.2 hle]

/-- A concrete `new Date` oracle used to exercise the date-range filter:
year-number strings map to their year value, everything else is Invalid. -/
def c8parse : String → Option ℚ := fun s =>
  if s = "2024" then some 2024
  else if s = "2023" then some 2023
  else if s = "2025" then some 2025
  else if s = "2020" then some 2020
  else if s = "2026" then some 2026
  else none

/-- C8 witness: under the concrete oracle and the range [2023, 2025] — the
unparseable date is kept by the filter, "2020" is dropped as before-start,
"2026" is dropped as after-end, "2024" is kept. -/
theorem filterByDateRange_fail_open_witness :
    (⟨"u", "t", "garbled"⟩ : ArticleSummary) ∈
      filterByDateRange c8parse (some ⟨some "2023", some "2025"⟩)
        [⟨"u", "t", "garbled"⟩] ∧
    keepByDateRange c8parse ⟨some "2023", some "2025"⟩ "2020" = false ∧
    keepByDateRange c8parse ⟨some "2023", some "2025"⟩ "2026" = false ∧
    keepByDateRange c8parse ⟨some "2023", some "2025"⟩ "2024" = true :=
  ⟨filterByDateRange_fail_open.1 c8parse _ _ _ (by simp) rfl,
   filterByDateRange_fail_open.2.1 c8parse _ "2020" "2023" 2020 2023
     rfl rfl rfl (by norm_num),
   filterByDateRange_fail_open.2.2.1 c8parse _ "2026" "2025" 2026 2025
     rfl rfl rfl (by norm_num),
   filterByDateRange_fail_open.2.2.2 c8parse _ "2024" 2024 rfl
     (by
       intro s sv hs hsv
       have hs2 : some "2023" = some s := hs
       injection hs2 with hs3
       subst hs3
       have hsv2 : some (2023 : ℚ) = some sv := hsv
       injection hsv2 with hsv3
       subst hsv3
       norm_num)
     (by
       intro e ev he hev
       have he2 : some "2025" = some e := he
       injection he2 with he3
       subst he3
       have hev2 : some (2025 : ℚ) = some ev := hev
       injection hev2 with hev3
       subst hev3
       norm_num)⟩

/- ## Article date parsing (src/src/scrapers/ArticleScraper.js parseArticleDate) -/

/-- JS regex `\w`: ASCII letters, digits, underscore. -/
def isWordChar (c : Char) : Bool := c.isAlpha || c.isDigit || c == '_'

/-- JS regex `\s` (ASCII whitespace suffices for the strings involved). -/
def isSpaceChar (c : Char) : Bool := c == ' ' || c == '\t' || c == '\n' || c == '\r'

/-- Consume exactly `n` digits (`\d{n}` for a fixed count). -/
def takeDigits : Nat → List Char → Option (List Char × List Char)
  | 0, l => some ([], l)
  | _ + 1, [] => none
  | n + 1, c :: rest =>
      if c.isDigit then
        match takeDigits n rest with
        | some (ds, r) => some (c :: ds, r)
        | none => none
      else none

/-- `\d{1,2}` immediately followed by the literal `lit` (both consumed),
with the regex's greedy-then-backtrack behaviour: two digits are preferred,
one digit is accepted, three or more digits fail. -/
def digits12ThenLit (lit : Char) : List Char → Option (List Char × List Char)
  | a :: b :: c :: rest =>
      if a.isDigit && b.isDigit && c == lit then some ([a, b, c], rest)
      else if a.isDigit && b == lit then some ([a, b], c :: rest)
      else none
  | [a, b] => if a.isDigit && b == lit then some ([a, b], []) else none
  | _ => none

/-- A trailing `\d{1,2}` at the end of a pattern: at least one digit, at
most two consumed (greedy). -/
def trailingDigits12 : List Char → Option (List Char)
  | c :: c2 :: _ => if c.isDigit then (if c2.isDigit then some [c, c2] else some [c]) else none
  | [c] => if c.isDigit then some [c] else none
  | [] => none

/-- Match `(\w+)\s+(\d{1,2}),\s+(\d{4})` ("January 1, 2024") at the head of
the input, returning the full matched text (`match[0]`). -/
def matchP1At (l : List Char) : Option (List Char) :=
  let (w, r1) := l.span isWordChar
  if w.isEmpty then none else
  let (s1, r2) := r1.span isSpaceChar
  if s1.isEmpty then none else
  match digits12ThenLit ',' r2 with
  | none => none
  | some (dc, r3) =>
      let (s2, r4) := r3.span isSpaceChar
      if s2.isEmpty then none else
      match takeDigits 4 r4 with
      | none => none
      | some (y, _) => some (w ++ s1 ++ dc ++ s2 ++ y)

/-- Match `(\d{1,2})\s+(\w+)\s+(\d{4})` ("1 January 2024") at the head. -/
def matchP2At (l : List Char) : Option (List Char) :=
  let (ds, r1) := l.span (fun c => c.isDigit)
  if ds.isEmpty || decide (2 < ds.length) then none else
  let (s1, r2) := r1.span isSpaceChar
  if s1.isEmpty then none else
  let (w, r3) := r2.span isWordChar
  if w.isEmpty then none else
  let (s2, r4) := r3.span isSpaceChar
  if s2.isEmpty then none else
  match takeDigits 4 r4 with
  | none => none
  | some (y, _) => some (ds ++ s1 ++ w ++ s2 ++ y)

/-- Match `(\w+)\s+(\d{1,2})` ("January 1") at the head. -/
def matchP3At (l : List Char) : Option (List Char) :=
  let (w, r1) := l.span isWordChar
  if w.isEmpty then none else
  let (s1, r2) := r1.span isSpaceChar
  if s1.isEmpty then none else
  match trailingDigits12 r2 with
  | none => none
  | some ds => some (w ++ s1 ++ ds)

/-- Match `(\d{1,2})\/(\d{1,2})\/(\d{4})` ("01/01/2024") at the head. -/
def matchP4At (l : List Char) : Option (List Char) :=
  match digits12ThenLit '/' l with
  | none => none
  | some (d1, r1) =>
      match digits12ThenLit '/' r1 with
      | none => none
      | some (d2, r2) =>
          match takeDigits 4 r2 with
          | none => none
          | some (y, _) => some (d1 ++ d2 ++ y)

/-- Match `(\d{4})-(\d{1,2})-(\d{1,2})` ("2024-01-01") at the head. -/
def matchP5At (l : List Char) : Option (List Char) :=
  match takeDigits 4 l with
  | none => none
  | some (y, r1) =>
      match r1 with
      | '-' :: r2 =>
          match digits12ThenLit '-' r2 with
          | none => none
          | some (m, r3) =>
              match trailingDigits12 r3 with
              | none => none
              | some d => some (y ++ ['-'] ++ m ++ d)
      | _ => none

/-- Match the relative pattern `(\d+)\s+(\w+)\s+ago` at the head, returning
the two capture groups (amount digits, unit word). -/
def matchRelAt (l : List Char) : Option (List Char × List Char) :=
  let (ds, r1) := l.span (fun c => c.isDigit)
  if ds.isEmpty then none else
  let (s1, r2) := r1.span isSpaceChar
  if s1.isEmpty then none else
  let (w, r3) := r2.span isWordChar
  if w.isEmpty then none else
  let (s2, r4) := r3.span isSpaceChar
  if s2.isEmpty then none else
  match r4 with
  | 'a' :: 'g' :: 'o' :: _ => some (ds, w)
  | _ => none

/-- Regex search: try the head matcher at every start position, leftmost
match wins (JS `String.prototype.match` on an unanchored pattern). -/
def searchPos {α : Type} (m : List Char → Option α) : List Char → Option α
  | [] => m []
  | c :: rest =>
      match m (c :: rest) with
      | some r => some r
      | none => searchPos m rest

/-- The `for (const pattern of datePatterns)` loop: the first pattern whose
match text parses (`new Date(match[0])`, modelled by the jsDate oracle) to
a valid date wins; a matching pattern whose text does not parse falls
through to the next pattern. -/
def firstValid (jsDate : String → Option Int) (chars : List Char) :
    List (List Char → Option (List Char)) → Option Int
  | [] => none
  | p :: ps =>
      match searchPos p chars with
      | some m =>
          match jsDate (String.mk m) with
          | some t => some t
          | none => firstValid jsDate chars ps
      | none => firstValid jsDate chars ps

/-- The five absolute-format patterns of parseArticleDate, in source
order. -/
def datePatterns : List (List Char → Option (List Char)) :=
  [matchP1At, matchP2At, matchP3At, matchP4At, matchP5At]

/-- Days-from-civil (proleptic Gregorian, day 0 = 1970-01-01); the
arithmetic JS Date uses internally for its UTC date fields. -/
def daysFromCivil (y m d : Int) : Int :=
  let y2 := y - (if m ≤ 2 then 1 else 0)
  let era := Int.fdiv y2 400
  let yoe := y2 - era * 400
  let mp := Int.emod (m + 9) 12
  let doy := Int.fdiv (153 * mp + 2) 5 + d - 1
  let doe := yoe * 365 + Int.fdiv yoe 4 - Int.fdiv yoe 100 + doy
  era * 146097 + doe - 719468

/-- Civil-from-days, inverse of `daysFromCivil` (year, month 1-12, day). -/
def civilFromDays (z0 : Int) : Int × Int × Int :=
  let z := z0 + 719468
  let era := Int.fdiv z 146097
  let doe := z - era * 146097
  let yoe := Int.fdiv (doe - Int.fdiv doe 1460 + Int.fdiv doe 36524 - Int.fdiv doe 146096) 365
  let y := yoe + era * 400
  let doy := doe - (365 * yoe + Int.fdiv yoe 4 - Int.fdiv yoe 100)
  let mp := Int.fdiv (5 * doy + 2) 153
  let d := doy - Int.fdiv (153 * mp + 2) 5 + 1
  let m := mp + (if mp < 10 then 3 else -9)
  (y + (if m ≤ 2 then 1 else 0), m, d)

/-- Epoch day for year/0-based-month-index/day-of-month with JS Date's
normalization of out-of-range month indices and day numbers. -/
def makeDay (y mIdx d : Int) : Int :=
  daysFromCivil (y + Int.fdiv mIdx 12) (Int.emod mIdx 12 + 1) d

/-- `now.setDate(now.getDate() - n)` on an epoch-ms timestamp (UTC zone). -/
def jsSetDateMinus (t n : Int) : Int :=
  let day := Int.fdiv t 86400000
  let ms := Int.emod t 86400000
  match civilFromDays day with
  | (y, m, d) => makeDay y (m - 1) (d - n) * 86400000 + ms

/-- `now.setMonth(now.getMonth() - n)` on an epoch-ms timestamp (UTC). -/
def jsSetMonthMinus (t n : Int) : Int :=
  let day := Int.fdiv t 86400000
  let ms := Int.emod t 86400000
  match civilFromDays day with
  | (y, m, d) => makeDay y (m - 1 - n) d * 86400000 + ms

/-- `now.setFullYear(now.getFullYear() - n)` on an epoch-ms timestamp. -/
def jsSetYearMinus (t n : Int) : Int :=
  let day := Int.fdiv t 86400000
  let ms := Int.emod t 86400000
  match civilFromDays day with
  | (y, m, d) => makeDay (y - n) (m - 1) d * 86400000 + ms

/-- The `switch (unit)` of the relative-date branch; an unrecognized unit
leaves `now` untouched (the switch has no default arm). -/
def relDate (now : Int) (unit : String) (amount : Int) : Int :=
  if unit = "second" ∨ unit = "seconds" then now - amount * 1000
  else if unit = "minute" ∨ unit = "minutes" then now - amount * 60000
  else if unit = "hour" ∨ unit = "hours" then now - amount * 3600000
  else if unit = "day" ∨ unit = "days" then jsSetDateMinus now amount
  else if unit = "week" ∨ unit = "weeks" then jsSetDateMinus now (amount * 7)
  else if unit = "month" ∨ unit = "months" then jsSetMonthMinus now amount
  else if unit = "year" ∨ unit = "years" then jsSetYearMinus now amount
  else now

/-- `parseInt(digits, 10)` on a capture that is all digits. -/
def digitsToNat (ds : List Char) : Nat :=
  ds.foldl (fun acc c => acc * 10 + (c.toNat - '0'.toNat)) 0

/-- Zero-padded decimal rendering. -/
def padNum (width n : Nat) : String :=
  let s := toString n
  String.mk (List.replicate (width - s.length) '0') ++ s

/-- `Date.prototype.toISOString` for timestamps whose year is 0-9999. -/
def isoString (t : Int) : String :=
  let ms := (Int.emod t 86400000).toNat
  match civilFromDays (Int.fdiv t 86400000) with
  | (y, m, d) =>
      padNum 4 y.toNat ++ "-" ++ padNum 2 m.toNat ++ "-" ++ padNum 2 d.toNat ++ "T" ++
      padNum 2 (ms / 3600000) ++ ":" ++ padNum 2 (ms / 60000 % 60) ++ ":" ++
      padNum 2 (ms / 1000 % 60) ++ "." ++ padNum 3 (ms % 1000) ++ "Z"

/-- `ArticleScraper.parseArticleDate` (ArticleScraper.js:220-297): absolute
patterns first (each validated through the host date parser `jsDate`),
then the relative `N unit(s) ago` pattern evaluated against `now`, then a
generic `new Date(dateText)` parse, and null when everything fails.  The
host timezone is modelled as UTC. -/
def parseArticleDate (jsDate : String → Option Int) (now : Int)
    (dateText : String) : Option String :=
  if dateText = "" then none
  else
    match firstValid jsDate dateText.data datePatterns with
    | some t => some (isoString t)
    | none =>
        match searchPos matchRelAt dateText.data with
        | some (ds, u) => some (isoString (relDate now (String.mk u) (digitsToNat ds)))
        | none => (jsDate dateText).map isoString

/-- C6: the date parser cascade — "2 days ago" at reference instant
2024-01-01T00:00:00Z yields the ISO string for that instant minus 48 hours
without consulting the host date parser; "January 5, 2024" is matched by
the first absolute pattern and resolves through the host parse of exactly
that text to 2024-01-05T00:00:00.000Z; a string matching no pattern whose
generic parse fails yields null; and in general, when every absolute
pattern and the relative pattern fail to match, the result is exactly the
generic `new Date(dateText)` parse rendered as ISO (null on failure),
never an exception. -/
theorem parseArticleDate_cascade :
    (∀ jsDate : String → Option Int,
      parseArticleDate jsDate 1704067200000 "2 days ago" =
        some "2023-12-30T00:00:00.000Z") ∧
    (∀ (jsDate : String → Option Int) (now : Int),
      jsDate "January 5, 2024" = some 1704412800000 →
      parseArticleDate jsDate now "January 5, 2024" =
        some "2024-01-05T00:00:00.000Z") ∧
    (∀ (jsDate : String → Option Int) (now : Int),
      jsDate "hello world" = none →
      parseArticleDate jsDate now "hello world" = none) ∧
    (∀ (jsDate : String → Option Int) (now : Int) (s : String),
      s ≠ "" →
      searchPos matchP1At s.data = none → searchPos matchP2At s.data = none →
      searchPos matchP3At s.data = none → searchPos matchP4At s.data = none →
      searchPos matchP5At s.data = none → searchPos matchRelAt s.data = none →
      parseArticleDate jsDate now s = (jsDate s).map isoString) := by
  refine ⟨?_, ?_, ?_, ?_⟩
  · intro jsDate
    rfl
  · intro jsDate now h
    have hfv : firstValid jsDate ("January 5, 2024".data) datePatterns =
        some 1704412800000 := by
      show (match jsDate "January 5, 2024" with
        | some t => some t
        | none => firstValid jsDate ("January 5, 2024".data)
            [matchP2At, matchP3At, matchP4At, matchP5At]) = some 1704412800000
      rw [h]
    show (match firstValid jsDate ("January 5, 2024".data) datePatterns with
      | some t => some (isoString t)
      | none =>
          match searchPos matchRelAt ("January 5, 2024".data) with
          | some (ds, u) => some (isoString (relDate now (String.mk u) (digitsToNat ds)))
          | none => (jsDate "January 5, 2024").map isoString) =
      some "2024-01-05T00:00:00.000Z"
    rw [hfv]
    rfl
  · intro jsDate now h
    show (match firstValid jsDate ("hello world".data) datePatterns with
      | some t => some (isoString t)
      | none =>
          match searchPos matchRelAt ("hello world".data) with
          | some (ds, u) => some (isoString (relDate now (String.mk u) (digitsToNat ds)))
          | none => (jsDate "hello world").map isoString) = none
    have hfv : firstValid jsDate ("hello world".data) datePatterns = none := rfl
    rw [hfv]
    show (jsDate "hello world").map isoString = none
    rw [h]
    rfl
  · intro jsDate now s hne h1 h2 h3 h4 h5 hrel
    unfold parseArticleDate
    rw [if_neg hne]
    have hfv : firstValid jsDate s.data datePatterns = none := by
      simp only [datePatterns, firstValid, h1, h2, h3, h4, h5]
    rw [hfv]
    show (match searchPos matchRelAt s.data with
      | some (ds, u) => some (isoString (relDate now (String.mk u) (digitsToNat ds)))
      | none => (jsDate s).map isoString) = (jsDate s).map isoString
    rw [hrel]

/-- The host `new Date(string)` oracle used for the concrete runs: it
recognizes only the month-name text the first pattern produces. -/
def c6jsDate : String → Option Int := fun s =>
  if s = "January 5, 2024" then some 1704412800000 else none

/-- C6 witness: the cascade at the concrete oracle — the relative, the
absolute, the unparsable, and the generic-fallback cases. -/
theorem parseArticleDate_cascade_witness :
    parseArticleDate c6jsDate 1704067200000 "2 days ago" =
      some "2023-12-30T00:00:00.000Z" ∧
    parseArticleDate c6jsDate 0 "January 5, 2024" = some "2024-01-05T00:00:00.000Z" ∧
    parseArticleDate c6jsDate 0 "hello world" = none ∧
    parseArticleDate c6jsDate 0 "!!" = (c6jsDate "!!").map isoString :=
  ⟨parseArticleDate_cascade.1 c6jsDate,
   parseArticleDate_cascade.2.1 c6jsDate 0 rfl,
   parseArticleDate_cascade.2.2.1 c6jsDate 0 rfl,
   parseArticleDate_cascade.2.2.2 c6jsDate 0 "!!" (by decide)
     rfl rfl rfl rfl rfl rfl⟩
